import Mathlib

/-!
The traits `pqxx_traits`: the PostgreSQL (libpqxx) backend traits of sqlgg

A shallow embedding of `src/impl/pqxx_traits.hpp`.

* The connection (`pqxx::work&`) is a value of an arbitrary state type `σ`; an operation of
  the client library is a function `σ → Except ε α × σ`: it ends with a value or with a raised
  error, and in both cases leaves a connection state behind (a C++ exception does not roll the
  connection object back).
* The client library itself is not part of the sources: its five entry points used by the
  adapter are the fields of `Backend`, a parameter of every definition.
* `typedef int Int;` values are carried from the caller to the library and never computed
  with, so they are integers without a width.
* The two handles are records of what the library objects hold: the statement name for a
  `prepare::declaration`, the statement name and the argument values passed so far for a
  `prepare::invocation`.
-/

namespace pqxx_traits

/-! ## Data model -/

/-- Source `typedef std::string Text;` -/
abbrev Text := String

/-- A parameter or column value of one of the two logical types (`Int`, `Text`). -/
inductive Value where
  | int (i : Int)
  | text (s : Text)
  deriving DecidableEq

/-- Source `pqxx::prepare::param_treatment`, the two passing conventions the adapter uses. -/
inductive param_treatment where
  | treat_string
  | treat_direct
  deriving DecidableEq

/-- Source `typedef pqxx::result::const_iterator row;` the tuple of fields the cursor points at. -/
abbrev row := List Value

/-- Source `pqxx::result`: the materialised rows of one execution. -/
abbrev result := List row

/-- Source `typedef pqxx::prepare::declaration stmt_decl;` the handle names the statement being
declared. -/
structure stmt_decl where
  statement : String
  deriving DecidableEq

/-- Source `pqxx::prepare::invocation`: the statement name and the argument values given so far. -/
structure invocation where
  statement : String
  values : List Value
  deriving DecidableEq

/-- Source `stmt(val)` on an invocation: the value becomes the next positional argument. -/
def invocation.arg (stmt : invocation) (val : Value) : invocation :=
  { stmt with values := stmt.values ++ [val] }

/-- An operation on the connection: a value or a raised error, and the connection after. -/
abbrev Eff (σ ε α : Type) := σ → Except ε α × σ

/-- The entry points of the client library that the adapter calls. -/
structure Backend (σ ε : Type) where
  /-- Source `db.conn().prepare(name, sql)` -/
  prepare : String → String → Eff σ ε Unit
  /-- Source `stmt(sqltype, treatment)` on a declaration handle -/
  declare : stmt_decl → String → param_treatment → Eff σ ε Unit
  /-- Source `db.prepared(name)` -/
  prepared : String → Eff σ ε Unit
  /-- Source `call.exec()` -/
  exec : invocation → Eff σ ε result
  /-- Source `db.conn().unprepare(name)` -/
  unprepare : String → Eff σ ε Unit

/-- The `Params` template argument: an object with the two `set_params` overloads and a
`count`. -/
structure Params (σ ε : Type) where
  set_params_decl : stmt_decl → Eff σ ε Unit
  set_params_inv : invocation → Eff σ ε invocation
  count : Nat

/-! ## The adapter -/

/-- Source `static void get_column(row r, int index, Int& data)`; the value is `data` on return. -/
def get_column_Int (_r : row) (_index : Int) (data : Int) : Int :=
  data

/-- Source `static void get_column(row r, int index, Text& data)`; the value is `data` on return. -/
def get_column_Text (_r : row) (_index : Int) (data : Text) : Text :=
  data

/-- Source `static void set_param(stmt_decl const& stmt, const Text& val, int index)` -/
def set_param_decl_Text {σ ε : Type} (B : Backend σ ε) (stmt : stmt_decl) (_val : Text)
    (_index : Int) : Eff σ ε Unit :=
  B.declare stmt "varchar" param_treatment.treat_string

/-- Source `static void set_param(stmt_decl const& stmt, const Int& val, int index)` -/
def set_param_decl_Int {σ ε : Type} (B : Backend σ ε) (stmt : stmt_decl) (_val : Int)
    (_index : Int) : Eff σ ε Unit :=
  B.declare stmt "INTEGER" param_treatment.treat_direct

/-- Source `template<typename T> static void set_param(pqxx::prepare::invocation& stmt, const T& val,
int index)`; the value is `stmt` on return. -/
def set_param_invocation (stmt : invocation) (val : Value) (_index : Int) : invocation :=
  stmt.arg val

/-- Source `do_select`: the outcome (the returned `bool`, or the error that left the function), the
output container on exit and the connection on exit. -/
def do_select {σ ε β : Type} (B : Backend σ ε) (db : σ) (result : result) (sql : String)
    (_binder : β) (params : Params σ ε) : Except ε Bool × pqxx_traits.result × σ :=
  let name := "sqlgg_stmt"
  match B.prepare name sql db with
  | (.error e, db) => (.error e, result, db)
  | (.ok _, db) =>
  match params.set_params_decl ⟨name⟩ db with
  | (.error e, db) => (.error e, result, db)
  | (.ok _, db) =>
  match B.prepared name db with
  | (.error e, db) => (.error e, result, db)
  | (.ok _, db) =>
  match params.set_params_inv ⟨name, []⟩ db with
  | (.error e, db) => (.error e, result, db)
  | (.ok call, db) =>
  match B.exec call db with
  | (.error e, db) => (.error e, result, db)
  | (.ok r, db) =>
  match B.unprepare name db with
  | (.error e, db) => (.error e, r, db)
  | (.ok _, db) => (.ok true, r, db)

/-- Source `struct no_params` -/
def no_params {σ ε : Type} : Params σ ε where
  set_params_decl := fun _ db => (.ok (), db)
  set_params_inv := fun call db => (.ok call, db)
  count := 0

/-- Source `template<class T> struct no_binder`: nothing is stored. -/
structure no_binder (T : Type) where
  deriving DecidableEq

/-- Source `void get(row,T&) {}`; the value is the second argument on return. -/
def no_binder.get {T : Type} (_b : no_binder T) (_r : row) (x : T) : T := x

/-- Source `void bind(row,T&) {}`; the value is the second argument on return. -/
def no_binder.bind {T : Type} (_b : no_binder T) (_r : row) (x : T) : T := x

/-- Source `enum { count = 0 };` -/
def no_binder.count {T : Type} (_b : no_binder T) : Nat := 0

/-- Source `do_execute`: the outcome and the connection on exit; the local `pqxx::result R` is
gone when the function returns. -/
def do_execute {σ ε : Type} (B : Backend σ ε) (db : σ) (sql : String) (params : Params σ ε) :
    Except ε Bool × σ :=
  let R : result := []
  let out := do_select B db R sql (no_binder.mk : no_binder Int) params
  (out.1, out.2.2)

/-! ## Parameter descriptors emitted by the generator -/

/-- Modelled from the spec: the declaration phase of a generator-emitted Parameter Descriptor
(the generator's output is not part of the sources). For each position, in ascending order
from `index`, the descriptor's write operation for that position's logical type is applied
to the declaration handle; a raised error ends the phase. -/
def generated_set_params_decl {σ ε : Type} (B : Backend σ ε) (stmt : stmt_decl) :
    List Value → Int → Eff σ ε Unit
  | [], _ => fun db => (.ok (), db)
  | .int v :: rest, index => fun db =>
    match set_param_decl_Int B stmt v index db with
    | (.error e, db) => (.error e, db)
    | (.ok _, db) => generated_set_params_decl B stmt rest (index + 1) db
  | .text v :: rest, index => fun db =>
    match set_param_decl_Text B stmt v index db with
    | (.error e, db) => (.error e, db)
    | (.ok _, db) => generated_set_params_decl B stmt rest (index + 1) db

/-- Modelled from the spec: the invocation phase of a generator-emitted Parameter Descriptor
(the generator's output is not part of the sources). The literal value of each position is
written to the invocation handle in ascending order from `index`. -/
def generated_set_params_inv (stmt : invocation) : List Value → Int → invocation
  | [], _ => stmt
  | v :: rest, index => generated_set_params_inv (set_param_invocation stmt v index) rest (index + 1)

/-- Modelled from the spec: a generator-emitted Parameter Descriptor for the values `vals`
(the generator's output is not part of the sources): count N and one write per position
0..N-1, the same descriptor serving both phases. -/
def generated_params {σ ε : Type} (B : Backend σ ε) (vals : List Value) : Params σ ε where
  set_params_decl := fun stmt => generated_set_params_decl B stmt vals 0
  set_params_inv := fun call db => (.ok (generated_set_params_inv call vals 0), db)
  count := vals.length

/-- The values `vals` with the entries at positions `i` and `j` exchanged. -/
def swap_values (vals : List Value) (i j : Nat) : List Value :=
  (vals.set i (vals.getD j (.int 0))).set j (vals.getD i (.int 0))

/-! ## Observing the calls made on the connection -/

/-- One call received by the client library or by the parameter descriptor. -/
inductive Event where
  | prepare (name sql : String)
  | declare (stmt : stmt_decl) (sqltype : String) (treatment : param_treatment)
  | prepared (name : String)
  | exec (call : invocation)
  | unprepare (name : String)
  | set_params_decl (stmt : stmt_decl)
  | set_params_inv (call : invocation)
  deriving DecidableEq

/-- Runs `op` on the connection and appends `ev` to the journal kept next to it. -/
def record {σ ε α : Type} (ev : Event) (op : Eff σ ε α) : Eff (σ × List Event) ε α :=
  fun s => match op s.1 with
    | (out, db) => (out, (db, s.2 ++ [ev]))

/-- The backend `B` with a journal of every call it receives. -/
def Backend.traced {σ ε : Type} (B : Backend σ ε) : Backend (σ × List Event) ε where
  prepare := fun name sql => record (.prepare name sql) (B.prepare name sql)
  declare := fun stmt sqltype treatment =>
    record (.declare stmt sqltype treatment) (B.declare stmt sqltype treatment)
  prepared := fun name => record (.prepared name) (B.prepared name)
  exec := fun call => record (.exec call) (B.exec call)
  unprepare := fun name => record (.unprepare name) (B.unprepare name)

/-- The descriptor `P` with a journal entry for each of its two phases. -/
def Params.traced {σ ε : Type} (P : Params σ ε) : Params (σ × List Event) ε where
  set_params_decl := fun stmt => record (.set_params_decl stmt) (P.set_params_decl stmt)
  set_params_inv := fun call => record (.set_params_inv call) (P.set_params_inv call)
  count := P.count

/-! ## A reference connection -/

/-- What the connection keeps for one registered statement. -/
structure prepared_def where
  definition : String
  parameters : List (String × param_treatment)
  deriving DecidableEq

/-- The registered statements of a connection, most recent first. -/
abbrev Registry := List (String × prepared_def)

/-- The server side: the outcome of running a statement text with its declared parameters
and the argument values. -/
abbrev Server := String → List (String × param_treatment) → List Value → Except String result

/-- The names of the registered statements ("list prepared statements"). -/
def Registry.names (reg : Registry) : List String :=
  reg.map Prod.fst

/-- The registry without the statement `name`. -/
def Registry.remove (reg : Registry) (name : String) : Registry :=
  reg.filter fun entry => entry.1 != name

/-- Modelled from the spec: the Connection handle of §6 (the client library is not part of
the sources), "prepare statement by name and SQL text", "invoke prepared statement by name",
"deregister prepared statement by name". A name can be registered again only with the same
text; parameters can be declared and a statement run only under a registered name. -/
def reference_backend (server : Server) : Backend Registry String where
  prepare := fun name sql reg =>
    match reg.lookup name with
    | some d =>
      if d.definition = sql then (.ok (), (name, ⟨sql, []⟩) :: reg.remove name)
      else (.error "inconsistent redefinition of prepared statement", reg)
    | none => (.ok (), (name, ⟨sql, []⟩) :: reg)
  declare := fun stmt sqltype treatment reg =>
    match reg.lookup stmt.statement with
    | some d =>
      (.ok (), (stmt.statement, ⟨d.definition, d.parameters ++ [(sqltype, treatment)]⟩)
        :: reg.remove stmt.statement)
    | none => (.error "unknown prepared statement", reg)
  prepared := fun _ reg => (.ok (), reg)
  exec := fun call reg =>
    match reg.lookup call.statement with
    | some d =>
      match server d.definition d.parameters call.values with
      | .ok r => (.ok r, reg)
      | .error e => (.error e, reg)
    | none => (.error "unknown prepared statement", reg)
  unprepare := fun name reg => (.ok (), reg.remove name)

/-- A server with the single table `users(id, name)` holding the row `(42, "bob")`: the one
query it knows selects the name for a given id, any other text is rejected. -/
def users_server : Server := fun sql _ args =>
  if sql = "SELECT name FROM users WHERE id = $1" then
    match args with
    | [.int 42] => .ok [[.text "bob"]]
    | [.int _] => .ok []
    | _ => .error "bind message supplies wrong parameters"
  else if sql = "SELECT 1" then
    match args with
    | [] => .ok [[.int 1]]
    | _ => .error "bind message supplies wrong parameters"
  else .error "relation does not exist"

/-! ## Specification predicates -/

/-- Every step of one `do_select` call ended without an error: `r` is what `exec` produced
and `db'` the connection after `unprepare`. -/
def Completes {σ ε : Type} (B : Backend σ ε) (db : σ) (sql : String) (params : Params σ ε)
    (r : result) (db' : σ) : Prop :=
  ∃ s1 s2 s3 call s4 s5,
    B.prepare "sqlgg_stmt" sql db = (.ok (), s1) ∧
    params.set_params_decl ⟨"sqlgg_stmt"⟩ s1 = (.ok (), s2) ∧
    B.prepared "sqlgg_stmt" s2 = (.ok (), s3) ∧
    params.set_params_inv ⟨"sqlgg_stmt", []⟩ s3 = (.ok call, s4) ∧
    B.exec call s4 = (.ok r, s5) ∧
    B.unprepare "sqlgg_stmt" s5 = (.ok (), db')

/-- The listing `names` of registered statement identities follows the backend: a successful
`prepare` adds its name, a successful `unprepare` removes its name, and the other calls
leave the listing alone. -/
structure TracksStatements {σ ε : Type} (B : Backend σ ε) (names : σ → List String) :
    Prop where
  prepare_adds : ∀ name sql s s', B.prepare name sql s = (.ok (), s') →
    ∀ m, m ∈ names s' ↔ m = name ∨ m ∈ names s
  declare_keeps : ∀ stmt ty tr s s', B.declare stmt ty tr s = (.ok (), s') →
    ∀ m, m ∈ names s' ↔ m ∈ names s
  prepared_keeps : ∀ name s s', B.prepared name s = (.ok (), s') →
    ∀ m, m ∈ names s' ↔ m ∈ names s
  exec_keeps : ∀ call r s s', B.exec call s = (.ok r, s') →
    ∀ m, m ∈ names s' ↔ m ∈ names s
  unprepare_removes : ∀ name s s', B.unprepare name s = (.ok (), s') →
    ∀ m, m ∈ names s' ↔ m ≠ name ∧ m ∈ names s

/-- The descriptor `P` reaches the connection only through the handle it is given: neither
phase changes the listing of registered statement identities. -/
structure KeepsStatements {σ ε : Type} (P : Params σ ε) (names : σ → List String) :
    Prop where
  decl_keeps : ∀ stmt s s', P.set_params_decl stmt s = (.ok (), s') →
    ∀ m, m ∈ names s' ↔ m ∈ names s
  inv_keeps : ∀ call call' s s', P.set_params_inv call s = (.ok call', s') →
    ∀ m, m ∈ names s' ↔ m ∈ names s

/-! ## Shared lemmas -/

/-- A call of `do_select` returns exactly when every step succeeded; it then returns `true`,
the container holds what `exec` produced and the connection is the one left by
`unprepare`. -/
theorem do_select_ok_iff {σ ε β : Type} (B : Backend σ ε) (db : σ) (R : result) (sql : String)
    (binder : β) (P : Params σ ε) (b : Bool) (R' : result) (db' : σ) :
    do_select B db R sql binder P = (.ok b, R', db') ↔
      b = true ∧ Completes B db sql P R' db' := by
  unfold do_select Completes
  rcases h1 : B.prepare "sqlgg_stmt" sql db with ⟨_ | _, s1⟩
  · simp [h1]
  rcases h2 : P.set_params_decl ⟨"sqlgg_stmt"⟩ s1 with ⟨_ | _, s2⟩
  · simp [h1, h2]
  rcases h3 : B.prepared "sqlgg_stmt" s2 with ⟨_ | _, s3⟩
  · simp [h1, h2, h3]
  rcases h4 : P.set_params_inv ⟨"sqlgg_stmt", []⟩ s3 with ⟨_ | call, s4⟩
  · simp [h1, h2, h3, h4]
  rcases h5 : B.exec call s4 with ⟨_ | r, s5⟩
  · simp [h1, h2, h3, h4, h5]
  rcases h6 : B.unprepare "sqlgg_stmt" s5 with ⟨_ | _, s6⟩
  · simp [h1, h2, h3, h4, h5, h6]
  simp [h1, h2, h3, h4, h5, h6]
  intro _
  constructor
  · rintro ⟨rfl, rfl⟩
    exact ⟨call, s4, ⟨rfl, rfl⟩, s5, h5, h6⟩
  · rintro ⟨c, t4, ⟨rfl, rfl⟩, t5, e5, e6⟩
    rw [h5] at e5
    simp only [Prod.mk.injEq, Except.ok.injEq] at e5
    obtain ⟨rfl, rfl⟩ := e5
    rw [h6] at e6
    simp only [Prod.mk.injEq, true_and] at e6
    exact ⟨rfl, e6⟩

/-- When `prepare` raises, `do_select` ends with that error, the container untouched. -/
theorem do_select_prepare_raises {σ ε β : Type} (B : Backend σ ε) (db : σ) (R : result)
    (sql : String) (binder : β) (P : Params σ ε) (e : ε) (s : σ)
    (h : B.prepare "sqlgg_stmt" sql db = (.error e, s)) :
    do_select B db R sql binder P = (.error e, R, s) := by
  unfold do_select
  simp [h]

/-- When the steps before `exec` succeed and `exec` raises, `do_select` ends with that error
in the connection state `exec` left, the container untouched. -/
theorem do_select_exec_raises {σ ε β : Type} (B : Backend σ ε) (db : σ) (R : result)
    (sql : String) (binder : β) (P : Params σ ε) (s1 s2 s3 s4 s5 : σ) (call : invocation)
    (e : ε)
    (h1 : B.prepare "sqlgg_stmt" sql db = (.ok (), s1))
    (h2 : P.set_params_decl ⟨"sqlgg_stmt"⟩ s1 = (.ok (), s2))
    (h3 : B.prepared "sqlgg_stmt" s2 = (.ok (), s3))
    (h4 : P.set_params_inv ⟨"sqlgg_stmt", []⟩ s3 = (.ok call, s4))
    (h5 : B.exec call s4 = (.error e, s5)) :
    do_select B db R sql binder P = (.error e, R, s5) := by
  unfold do_select
  simp [h1, h2, h3, h4, h5]

/-- The outcome and the final connection of `do_select` depend neither on what the output
container held on entry nor on the binder. -/
theorem do_select_container_irrelevant {σ ε β γ : Type} (B : Backend σ ε) (db : σ)
    (R R2 : result) (sql : String) (binder : β) (binder2 : γ) (P : Params σ ε) :
    (do_select B db R sql binder P).1 = (do_select B db R2 sql binder2 P).1 ∧
    (do_select B db R sql binder P).2.2 = (do_select B db R2 sql binder2 P).2.2 := by
  unfold do_select
  rcases h1 : B.prepare "sqlgg_stmt" sql db with ⟨_ | _, s1⟩
  · simp [h1]
  rcases h2 : P.set_params_decl ⟨"sqlgg_stmt"⟩ s1 with ⟨_ | _, s2⟩
  · simp [h1, h2]
  rcases h3 : B.prepared "sqlgg_stmt" s2 with ⟨_ | _, s3⟩
  · simp [h1, h2, h3]
  rcases h4 : P.set_params_inv ⟨"sqlgg_stmt", []⟩ s3 with ⟨_ | call, s4⟩
  · simp [h1, h2, h3, h4]
  rcases h5 : B.exec call s4 with ⟨_ | r, s5⟩
  · simp [h1, h2, h3, h4, h5]
  rcases h6 : B.unprepare "sqlgg_stmt" s5 with ⟨_ | _, s6⟩
  · simp [h1, h2, h3, h4, h5, h6]
  simp [h1, h2, h3, h4, h5, h6]

/-- Membership in the listing after a statement was removed from the registry. -/
theorem mem_names_remove (reg : Registry) (name m : String) :
    m ∈ (reg.remove name).names ↔ m ≠ name ∧ m ∈ reg.names := by
  unfold Registry.remove Registry.names
  simp only [List.mem_map, List.mem_filter, bne_iff_ne, ne_eq]
  constructor
  · rintro ⟨entry, ⟨hmem, hne⟩, rfl⟩
    exact ⟨hne, entry, hmem, rfl⟩
  · rintro ⟨hne, entry, hmem, rfl⟩
    exact ⟨entry, ⟨hmem, hne⟩, rfl⟩

/-- A name found in the registry is in its listing. -/
theorem mem_names_of_lookup (reg : Registry) (name : String) (d : prepared_def)
    (h : reg.lookup name = some d) : name ∈ reg.names := by
  induction reg with
  | nil => simp [List.lookup] at h
  | cons entry rest ih =>
    obtain ⟨k, v⟩ := entry
    by_cases hk : name = k
    · subst hk
      simp [Registry.names]
    · have hb : (name == k) = false := by simpa using hk
      rw [List.lookup_cons, hb] at h
      have := ih h
      simp only [Registry.names, List.map_cons, List.mem_cons] at this ⊢
      exact Or.inr this

/-- The reference connection's listing follows its `prepare` and `unprepare`. -/
theorem reference_backend_tracks (server : Server) :
    TracksStatements (reference_backend server) Registry.names where
  prepare_adds := by
    intro name sql s s' h m
    simp only [reference_backend] at h
    split at h
    · rename_i d hd
      split at h
      · simp only [Prod.mk.injEq, true_and] at h
        subst h
        have hin := mem_names_of_lookup s name d hd
        have := mem_names_remove s name m
        simp only [Registry.names, List.map_cons, List.mem_cons] at this hin ⊢
        rw [this]
        by_cases hm : m = name <;> simp [hm]
      · simp at h
    · simp only [Prod.mk.injEq, true_and] at h
      subst h
      simp [Registry.names]
  declare_keeps := by
    intro stmt ty tr s s' h m
    simp only [reference_backend] at h
    split at h
    · rename_i d hd
      simp only [Prod.mk.injEq, true_and] at h
      subst h
      have hin := mem_names_of_lookup s stmt.statement d hd
      have := mem_names_remove s stmt.statement m
      simp only [Registry.names, List.map_cons, List.mem_cons] at this hin ⊢
      rw [this]
      by_cases hm : m = stmt.statement
      · subst hm
        simpa using hin
      · simp [hm]
    · simp at h
  prepared_keeps := by
    intro name s s' h m
    simp only [reference_backend, Prod.mk.injEq, true_and] at h
    subst h
    exact Iff.rfl
  exec_keeps := by
    intro call r s s' h m
    simp only [reference_backend] at h
    split at h
    · split at h
      · simp only [Prod.mk.injEq] at h
        rw [← h.2]
      · simp at h
    · simp at h
  unprepare_removes := by
    intro name s s' h m
    simp only [reference_backend, Prod.mk.injEq, true_and] at h
    subst h
    exact mem_names_remove s name m

/-- The zero-parameter descriptor leaves every listing alone. -/
theorem no_params_keeps {σ ε : Type} (names : σ → List String) :
    KeepsStatements (no_params : Params σ ε) names where
  decl_keeps := by
    intro stmt s s' h m
    simp only [no_params, Prod.mk.injEq, true_and] at h
    subst h
    exact Iff.rfl
  inv_keeps := by
    intro call call' s s' h m
    simp only [no_params, Prod.mk.injEq] at h
    rw [← h.2]

/-- The declaration phase of a generated descriptor leaves the listing alone on every backend
whose listing follows its calls. -/
theorem generated_set_params_decl_keeps {σ ε : Type} (B : Backend σ ε)
    (names : σ → List String) (hB : TracksStatements B names) (stmt : stmt_decl)
    (vals : List Value) (index : Int) (s s' : σ)
    (h : generated_set_params_decl B stmt vals index s = (.ok (), s')) (m : String) :
    m ∈ names s' ↔ m ∈ names s := by
  induction vals generalizing index s with
  | nil =>
    simp only [generated_set_params_decl, Prod.mk.injEq, true_and] at h
    subst h
    exact Iff.rfl
  | cons v rest ih =>
    cases v with
    | int x =>
      simp only [generated_set_params_decl, set_param_decl_Int] at h
      rcases hd : B.declare stmt "INTEGER" .treat_direct s with ⟨_ | _, t⟩
      · simp [hd] at h
      · simp only [hd] at h
        exact (ih _ _ h).trans (hB.declare_keeps _ _ _ _ _ hd m)
    | text x =>
      simp only [generated_set_params_decl, set_param_decl_Text] at h
      rcases hd : B.declare stmt "varchar" .treat_string s with ⟨_ | _, t⟩
      · simp [hd] at h
      · simp only [hd] at h
        exact (ih _ _ h).trans (hB.declare_keeps _ _ _ _ _ hd m)

/-- A generated descriptor leaves the listing alone on every backend whose listing follows
its calls. -/
theorem generated_params_keeps {σ ε : Type} (B : Backend σ ε) (names : σ → List String)
    (hB : TracksStatements B names) (vals : List Value) :
    KeepsStatements (generated_params B vals) names where
  decl_keeps := by
    intro stmt s s' h m
    exact generated_set_params_decl_keeps B names hB stmt vals 0 s s' h m
  inv_keeps := by
    intro call call' s s' h m
    simp only [generated_params, Prod.mk.injEq] at h
    rw [← h.2]

/-- What a journalled operation returns: the operation's own outcome and connection, and
the journal extended by the one entry. -/
theorem record_eq_iff {σ ε α : Type} (ev : Event) (op : Eff σ ε α) (s s' : σ × List Event)
    (out : Except ε α) :
    record ev op s = (out, s') ↔ op s.1 = (out, s'.1) ∧ s'.2 = s.2 ++ [ev] := by
  unfold record
  rcases h : op s.1 with ⟨o, t⟩
  obtain ⟨t', j'⟩ := s'
  simp only [Prod.mk.injEq]
  constructor
  · rintro ⟨rfl, rfl, rfl⟩
    exact ⟨⟨rfl, rfl⟩, rfl⟩
  · rintro ⟨⟨rfl, rfl⟩, rfl⟩
    exact ⟨rfl, rfl, rfl⟩

/-- The journal after a journalled operation. -/
theorem record_journal {σ ε α : Type} (ev : Event) (op : Eff σ ε α) (s : σ × List Event) :
    (record ev op s).2.2 = s.2 ++ [ev] := by
  unfold record
  rcases h : op s.1 with ⟨o, t⟩
  rfl

/-- The invocation phase of a generated descriptor appends its values, in position order,
to the arguments the handle already holds, and keeps the statement name. -/
theorem generated_set_params_inv_eq (vals : List Value) (call : invocation) (index : Int) :
    generated_set_params_inv call vals index = ⟨call.statement, call.values ++ vals⟩ := by
  induction vals generalizing call index with
  | nil => simp [generated_set_params_inv]
  | cons v rest ih =>
    simp [generated_set_params_inv, ih, set_param_invocation, invocation.arg]

/-- The declaration phase of a generated descriptor on a journalled backend adds only
`declare` entries to the journal. -/
theorem generated_set_params_decl_journal {σ ε : Type} (B : Backend σ ε) (stmt : stmt_decl)
    (vals : List Value) (index : Int) (s : σ × List Event) (ev : Event)
    (hev : ev ∈ (generated_set_params_decl B.traced stmt vals index s).2.2) :
    ev ∈ s.2 ∨ ∃ ty tr, ev = .declare stmt ty tr := by
  induction vals generalizing index s with
  | nil =>
    simp only [generated_set_params_decl] at hev
    exact Or.inl hev
  | cons v rest ih =>
    cases v with
    | int x =>
      simp only [generated_set_params_decl] at hev
      have hj := record_journal (.declare stmt "INTEGER" .treat_direct)
        (B.declare stmt "INTEGER" .treat_direct) s
      rcases h : set_param_decl_Int B.traced stmt x index s with ⟨_ | _, t⟩
      · rw [h] at hev
        simp only [set_param_decl_Int, Backend.traced] at h
        rw [h] at hj
        simp only at hev hj
        rw [hj] at hev
        rcases List.mem_append.mp hev with h' | h'
        · exact Or.inl h'
        · exact Or.inr ⟨_, _, List.mem_singleton.mp h'⟩
      · rw [h] at hev
        simp only [set_param_decl_Int, Backend.traced] at h
        rw [h] at hj
        simp only at hev hj
        rcases ih _ _ hev with h' | h'
        · rw [hj] at h'
          rcases List.mem_append.mp h' with h'' | h''
          · exact Or.inl h''
          · exact Or.inr ⟨_, _, List.mem_singleton.mp h''⟩
        · exact Or.inr h'
    | text x =>
      simp only [generated_set_params_decl] at hev
      have hj := record_journal (.declare stmt "varchar" .treat_string)
        (B.declare stmt "varchar" .treat_string) s
      rcases h : set_param_decl_Text B.traced stmt x index s with ⟨_ | _, t⟩
      · rw [h] at hev
        simp only [set_param_decl_Text, Backend.traced] at h
        rw [h] at hj
        simp only at hev hj
        rw [hj] at hev
        rcases List.mem_append.mp hev with h' | h'
        · exact Or.inl h'
        · exact Or.inr ⟨_, _, List.mem_singleton.mp h'⟩
      · rw [h] at hev
        simp only [set_param_decl_Text, Backend.traced] at h
        rw [h] at hj
        simp only at hev hj
        rcases ih _ _ hev with h' | h'
        · rw [hj] at h'
          rcases List.mem_append.mp h' with h'' | h''
          · exact Or.inl h''
          · exact Or.inr ⟨_, _, List.mem_singleton.mp h''⟩
        · exact Or.inr h'

/-- On a journalled backend, when the descriptor's declaration phase adds only `declare`
entries and its invocation phase is the pure handle update `f`, every `exec` entry of a
`do_select` run is for the handle `f` makes from the fresh one. -/
theorem do_select_traced_exec {σ ε β : Type} (B : Backend σ ε)
    (Q : Params (σ × List Event) ε) (f : invocation → invocation)
    (hdecl : ∀ stmt s ev, ev ∈ (Q.set_params_decl stmt s).2.2 →
      ev ∈ s.2 ∨ ∃ ty tr, ev = .declare stmt ty tr)
    (hinv : ∀ call s, Q.set_params_inv call s = (.ok (f call), s))
    (db : σ) (R : result) (sql : String) (binder : β) (call : invocation)
    (h : Event.exec call ∈ (do_select B.traced (db, []) R sql binder Q).2.2.2) :
    call = f ⟨"sqlgg_stmt", []⟩ := by
  unfold do_select at h
  have e1 := record_journal (.prepare "sqlgg_stmt" sql) (B.prepare "sqlgg_stmt" sql) (db, [])
  change (B.traced.prepare "sqlgg_stmt" sql (db, [])).2.2 = _ at e1
  rcases h1 : B.traced.prepare "sqlgg_stmt" sql (db, []) with ⟨_ | _, s1, j1⟩ <;>
    rw [h1] at e1 <;> simp only [List.nil_append] at e1 <;> subst e1 <;> simp only [h1] at h
  · simp at h
  have e2 := hdecl ⟨"sqlgg_stmt"⟩ (s1, [.prepare "sqlgg_stmt" sql]) (.exec call)
  rcases h2 : Q.set_params_decl ⟨"sqlgg_stmt"⟩ (s1, [.prepare "sqlgg_stmt" sql])
    with ⟨_ | _, s2, j2⟩ <;> rw [h2] at e2 <;>
    simp only [List.mem_singleton, reduceCtorEq, exists_false, or_self, imp_false] at e2 <;>
    simp only [h2] at h
  · exact absurd h e2
  have e3 := record_journal (.prepared "sqlgg_stmt") (B.prepared "sqlgg_stmt") (s2, j2)
  change (B.traced.prepared "sqlgg_stmt" (s2, j2)).2.2 = _ at e3
  rcases h3 : B.traced.prepared "sqlgg_stmt" (s2, j2) with ⟨_ | _, s3, j3⟩ <;>
    rw [h3] at e3 <;> simp only at e3 <;> subst e3 <;> simp only [h3] at h
  · simp [e2] at h
  simp only [hinv] at h
  have e5 := record_journal (.exec (f ⟨"sqlgg_stmt", []⟩)) (B.exec (f ⟨"sqlgg_stmt", []⟩))
    (s3, j2 ++ [.prepared "sqlgg_stmt"])
  change (B.traced.exec (f ⟨"sqlgg_stmt", []⟩) (s3, j2 ++ [.prepared "sqlgg_stmt"])).2.2 = _
    at e5
  rcases h5 : B.traced.exec (f ⟨"sqlgg_stmt", []⟩) (s3, j2 ++ [.prepared "sqlgg_stmt"])
    with ⟨_ | _, s5, j5⟩ <;> rw [h5] at e5 <;> simp only at e5 <;> subst e5 <;>
    simp only [h5] at h
  · simpa [e2] using h
  have e6 := record_journal (.unprepare "sqlgg_stmt") (B.unprepare "sqlgg_stmt")
    (s5, j2 ++ [.prepared "sqlgg_stmt"] ++ [.exec (f ⟨"sqlgg_stmt", []⟩)])
  change (B.traced.unprepare "sqlgg_stmt"
    (s5, j2 ++ [.prepared "sqlgg_stmt"] ++ [.exec (f ⟨"sqlgg_stmt", []⟩)])).2.2 = _ at e6
  rcases h6 : B.traced.unprepare "sqlgg_stmt"
    (s5, j2 ++ [.prepared "sqlgg_stmt"] ++ [.exec (f ⟨"sqlgg_stmt", []⟩)])
    with ⟨_ | _, s6, j6⟩ <;> rw [h6] at e6 <;> simp only at e6 <;> subst e6 <;>
    simp only [h6] at h
  · simpa [e2] using h
  · simpa [e2] using h

/-! ## C1 -/

/-- C1 (as stated, refuted): on the reference connection a statement over a table that does
not exist makes `exec` report an error, and `do_select` does not yield `false`: the error
leaves the function. -/
theorem do_select_error_is_not_false :
    ((reference_backend users_server).exec ⟨"sqlgg_stmt", []⟩
        [("sqlgg_stmt", ⟨"SELECT name FROM missing", []⟩)]).1
      = .error "relation does not exist" ∧
    (do_select (reference_backend users_server) [] [] "SELECT name FROM missing" ()
        no_params).1 = .error "relation does not exist" ∧
    (do_select (reference_backend users_server) [] [] "SELECT name FROM missing" ()
        no_params).1 ≠ .ok false := by
  refine ⟨rfl, rfl, ?_⟩
  intro h
  have h' : (Except.error "relation does not exist" : Except String Bool) = .ok false := h
  cases h'

/-- C1 (amended): `do_select` never yields `false`. It yields `true` exactly when every step
on the connection ends without an error; an error reported by `prepare`, or by `exec` after
the earlier steps succeeded, leaves the function as that same error with the output
container untouched. -/
theorem do_select_outcome {σ ε β : Type} (B : Backend σ ε) (db : σ) (R : result)
    (sql : String) (binder : β) (P : Params σ ε) :
    (do_select B db R sql binder P).1 ≠ .ok false ∧
    ((do_select B db R sql binder P).1 = .ok true ↔ ∃ r db', Completes B db sql P r db') ∧
    (∀ e s, B.prepare "sqlgg_stmt" sql db = (.error e, s) →
      do_select B db R sql binder P = (.error e, R, s)) ∧
    (∀ s1 s2 s3 call s4 e s5,
      B.prepare "sqlgg_stmt" sql db = (.ok (), s1) →
      P.set_params_decl ⟨"sqlgg_stmt"⟩ s1 = (.ok (), s2) →
      B.prepared "sqlgg_stmt" s2 = (.ok (), s3) →
      P.set_params_inv ⟨"sqlgg_stmt", []⟩ s3 = (.ok call, s4) →
      B.exec call s4 = (.error e, s5) →
      do_select B db R sql binder P = (.error e, R, s5)) := by
  refine ⟨?_, ⟨?_, ?_⟩, ?_, ?_⟩
  · intro h
    have := (do_select_ok_iff B db R sql binder P false
      (do_select B db R sql binder P).2.1 (do_select B db R sql binder P).2.2).mp
      (Prod.ext h rfl)
    exact Bool.false_ne_true this.1
  · intro h
    have := (do_select_ok_iff B db R sql binder P true
      (do_select B db R sql binder P).2.1 (do_select B db R sql binder P).2.2).mp
      (Prod.ext h rfl)
    exact ⟨_, _, this.2⟩
  · rintro ⟨r, db', h⟩
    rw [(do_select_ok_iff B db R sql binder P true r db').mpr ⟨rfl, h⟩]
  · intro e s h
    exact do_select_prepare_raises B db R sql binder P e s h
  · intro s1 s2 s3 call s4 e s5 h1 h2 h3 h4 h5
    exact do_select_exec_raises B db R sql binder P s1 s2 s3 s4 s5 call e h1 h2 h3 h4 h5

/-- C1 (amended), at the reference connection: the parameterless query completes, and a table
that does not exist makes `exec` raise. -/
theorem do_select_outcome_witness :
    (do_select (reference_backend users_server) [] [] "SELECT 1" () no_params).1 = .ok true ∧
    do_select (reference_backend users_server) [] [] "SELECT name FROM missing" () no_params
      = (.error "relation does not exist", [],
          [("sqlgg_stmt", ⟨"SELECT name FROM missing", []⟩)]) :=
  ⟨(do_select_outcome (reference_backend users_server) [] [] "SELECT 1" () no_params).2.1.mpr
      ⟨[[.int 1]], [], [("sqlgg_stmt", ⟨"SELECT 1", []⟩)],
        [("sqlgg_stmt", ⟨"SELECT 1", []⟩)], [("sqlgg_stmt", ⟨"SELECT 1", []⟩)],
        ⟨"sqlgg_stmt", []⟩, [("sqlgg_stmt", ⟨"SELECT 1", []⟩)],
        [("sqlgg_stmt", ⟨"SELECT 1", []⟩)], rfl, rfl, rfl, rfl, rfl, rfl⟩,
   (do_select_outcome (reference_backend users_server) [] [] "SELECT name FROM missing" ()
      no_params).2.2.2
      [("sqlgg_stmt", ⟨"SELECT name FROM missing", []⟩)]
      [("sqlgg_stmt", ⟨"SELECT name FROM missing", []⟩)]
      [("sqlgg_stmt", ⟨"SELECT name FROM missing", []⟩)]
      ⟨"sqlgg_stmt", []⟩
      [("sqlgg_stmt", ⟨"SELECT name FROM missing", []⟩)]
      "relation does not exist"
      [("sqlgg_stmt", ⟨"SELECT name FROM missing", []⟩)] rfl rfl rfl rfl rfl⟩

/-! ## C2 -/

/-- C2: on a connection with no registered statement identity, a call of `do_select` that
completes leaves no statement identity registered: the name `prepare` registered is the
name `unprepare` removes. The backend's listing is assumed to follow its `prepare` and
`unprepare`, and the descriptor to act on the connection only through its handle. -/
theorem do_select_success_deregisters {σ ε β : Type} (B : Backend σ ε)
    (names : σ → List String) (db : σ) (R : result) (sql : String) (binder : β)
    (P : Params σ ε) (b : Bool) (R' : result) (db' : σ)
    (hB : TracksStatements B names) (hP : KeepsStatements P names)
    (hempty : names db = [])
    (h : do_select B db R sql binder P = (.ok b, R', db')) :
    names db' = [] := by
  obtain ⟨_, s1, s2, s3, call, s4, s5, h1, h2, h3, h4, h5, h6⟩ :=
    (do_select_ok_iff B db R sql binder P b R' db').mp h
  rw [List.eq_nil_iff_forall_not_mem]
  intro m hm
  have k6 := (hB.unprepare_removes _ _ _ h6 m).mp hm
  have k5 := (hB.exec_keeps _ _ _ _ h5 m).mp k6.2
  have k4 := (hP.inv_keeps _ _ _ _ h4 m).mp k5
  have k3 := (hB.prepared_keeps _ _ _ h3 m).mp k4
  have k2 := (hP.decl_keeps _ _ _ h2 m).mp k3
  have k1 := (hB.prepare_adds _ _ _ _ h1 m).mp k2
  rw [hempty] at k1
  rcases k1 with k1 | k1
  · exact k6.1 k1
  · simp at k1

/-- C2 on the reference connection: the parameterless query completes on an empty registry
and leaves it empty. -/
theorem do_select_success_deregisters_witness :
    Registry.names ([] : Registry) = [] ∧
    do_select (reference_backend users_server) [] [] "SELECT 1" () no_params
      = (.ok true, [[.int 1]], []) ∧
    Registry.names
      (do_select (reference_backend users_server) [] [] "SELECT 1" () no_params).2.2 = [] :=
  ⟨rfl, rfl,
    do_select_success_deregisters (reference_backend users_server) Registry.names [] []
      "SELECT 1" () no_params true [[.int 1]] []
      (reference_backend_tracks users_server) (no_params_keeps Registry.names) rfl rfl⟩

/-! ## C3 -/

/-- C3 (the code at the failing input): a statement over a table that does not exist is
registered by `prepare`, `exec` raises, and `do_select` ends with the error while
`sqlgg_stmt` is still in the connection's listing. -/
theorem do_select_exec_failure_keeps_statement :
    Registry.names ([] : Registry) = [] ∧
    do_select (reference_backend users_server) [] [] "DELETE FROM missing" ()
        no_params
      = (.error "relation does not exist", [],
          [("sqlgg_stmt", ⟨"DELETE FROM missing", []⟩)]) ∧
    Registry.names (do_select (reference_backend users_server) [] []
        "DELETE FROM missing" () no_params).2.2 = ["sqlgg_stmt"] ∧
    (do_execute (reference_backend users_server) [] "DELETE FROM missing" no_params).2
      = [("sqlgg_stmt", ⟨"DELETE FROM missing", []⟩)] :=
  ⟨rfl, rfl, rfl, rfl⟩

/-! ## C4 -/

/-- C4: `do_execute` gives the success indicator (or the error) and the final connection of
`do_select` run on the same connection, text and descriptor, whatever result container and
binder `do_select` is given; only the result set is dropped. -/
theorem do_execute_eq_do_select {σ ε β : Type} (B : Backend σ ε) (db : σ) (sql : String)
    (P : Params σ ε) (R : result) (binder : β) :
    do_execute B db sql P =
      ((do_select B db R sql binder P).1, (do_select B db R sql binder P).2.2) := by
  unfold do_execute
  have := do_select_container_irrelevant B db [] R sql (no_binder.mk : no_binder Int) binder P
  exact Prod.ext this.1 this.2

/-! ## C6 -/

/-- C6: when `do_select` returns, the output container holds the result set that `exec`
produced in that run, and the same holds for every other initial content of the container
and every other binder. -/
theorem do_select_result_is_exec {σ ε β : Type} (B : Backend σ ε) (db : σ) (R : result)
    (sql : String) (binder : β) (P : Params σ ε) (b : Bool) (R' : result) (db' : σ)
    (h : do_select B db R sql binder P = (.ok b, R', db')) :
    Completes B db sql P R' db' ∧
    ∀ (R2 : result) (γ : Type) (binder2 : γ),
      do_select B db R2 sql binder2 P = (.ok b, R', db') := by
  have hc := (do_select_ok_iff B db R sql binder P b R' db').mp h
  refine ⟨hc.2, ?_⟩
  intro R2 γ binder2
  exact (do_select_ok_iff B db R2 sql binder2 P b R' db').mpr hc

/-- C6 on the reference connection: the parameterless query overwrites a container that
held another row with the row the server produced. -/
theorem do_select_result_is_exec_witness :
    do_select (reference_backend users_server) [] [[.int 9]] "SELECT 1"
        (no_binder.mk : no_binder Int) no_params = (.ok true, [[.int 1]], []) ∧
    Completes (reference_backend users_server) [] "SELECT 1" no_params [[.int 1]] [] ∧
    do_select (reference_backend users_server) [] [] "SELECT 1" () no_params
      = (.ok true, [[.int 1]], []) :=
  ⟨rfl,
    (do_select_result_is_exec (reference_backend users_server) [] [[.int 9]] "SELECT 1"
      (no_binder.mk : no_binder Int) no_params true [[.int 1]] [] rfl).1,
    (do_select_result_is_exec (reference_backend users_server) [] [[.int 9]] "SELECT 1"
      (no_binder.mk : no_binder Int) no_params true [[.int 1]] [] rfl).2 [] Unit ()⟩

/-! ## C5 -/

/-- C5: with the zero-parameter descriptor neither phase touches its handle or the
connection, and in every run of `do_select` and of `do_execute` the client library receives
no parameter-type declaration and runs the statement with an empty argument list. -/
theorem no_params_writes_nothing {σ ε β : Type} (B : Backend σ ε) (db : σ) (R : result)
    (sql : String) (binder : β) :
    (∀ stmt s, (no_params : Params σ ε).set_params_decl stmt s = (.ok (), s)) ∧
    (∀ call s, (no_params : Params σ ε).set_params_inv call s = (.ok call, s)) ∧
    (∀ stmt ty tr, Event.declare stmt ty tr ∉
      (do_select B.traced (db, []) R sql binder no_params).2.2.2) ∧
    (∀ call, Event.exec call ∈ (do_select B.traced (db, []) R sql binder no_params).2.2.2 →
      call = ⟨"sqlgg_stmt", []⟩) ∧
    (∀ stmt ty tr, Event.declare stmt ty tr ∉
      (do_execute B.traced (db, []) sql no_params).2.2) ∧
    (∀ call, Event.exec call ∈ (do_execute B.traced (db, []) sql no_params).2.2 →
      call = ⟨"sqlgg_stmt", []⟩) := by
  have key : ∀ (γ : Type) (R0 : result) (b0 : γ),
      (∀ stmt ty tr, Event.declare stmt ty tr ∉
        (do_select B.traced (db, []) R0 sql b0 no_params).2.2.2) ∧
      (∀ call, Event.exec call ∈ (do_select B.traced (db, []) R0 sql b0 no_params).2.2.2 →
        call = ⟨"sqlgg_stmt", []⟩) := by
    intro γ R0 b0
    unfold do_select
    simp only [Backend.traced, no_params, record]
    rcases h1 : B.prepare "sqlgg_stmt" sql db with ⟨_ | _, s1⟩
    · simp [h1]
    rcases h3 : B.prepared "sqlgg_stmt" s1 with ⟨_ | _, s3⟩
    · simp [h1, h3]
    rcases h5 : B.exec ⟨"sqlgg_stmt", []⟩ s3 with ⟨_ | r, s5⟩
    · simp [h1, h3, h5]
    rcases h6 : B.unprepare "sqlgg_stmt" s5 with ⟨_ | _, s6⟩
    · simp [h1, h3, h5, h6]
    · simp [h1, h3, h5, h6]
  refine ⟨fun _ _ => rfl, fun _ _ => rfl, (key β R binder).1, (key β R binder).2, ?_, ?_⟩
  · exact (key (no_binder Int) [] no_binder.mk).1
  · exact (key (no_binder Int) [] no_binder.mk).2

/-- C5 on the reference connection: the journal of the parameterless query has no
declaration, and its one `exec` carries no argument. -/
theorem no_params_writes_nothing_witness :
    (do_select (reference_backend users_server).traced ([], []) [] "SELECT 1" ()
        no_params).2.2.2
      = [.prepare "sqlgg_stmt" "SELECT 1", .prepared "sqlgg_stmt",
         .exec ⟨"sqlgg_stmt", []⟩, .unprepare "sqlgg_stmt"] ∧
    (⟨"sqlgg_stmt", []⟩ : invocation) = ⟨"sqlgg_stmt", []⟩ :=
  ⟨rfl,
   (no_params_writes_nothing (reference_backend users_server) [] [] "SELECT 1" ()).2.2.2.1
     ⟨"sqlgg_stmt", []⟩
     (List.mem_cons_of_mem _ (List.mem_cons_of_mem _ (List.mem_cons_self _ _)))⟩

/-! ## C7 -/

/-- C7: the declaration-phase `set_param` for `Text` is one call of the declaration handle
with `"varchar"` and `treat_string`, the one for `Int` is one call with `"INTEGER"` and
`treat_direct`, for every handle, value and index: on a journalled backend each adds exactly
that one entry to the journal. -/
theorem set_param_decl_type_mapping {σ ε : Type} (B : Backend σ ε) (stmt : stmt_decl)
    (index : Int) :
    (∀ val : Text, set_param_decl_Text B stmt val index =
      B.declare stmt "varchar" param_treatment.treat_string) ∧
    (∀ val : Int, set_param_decl_Int B stmt val index =
      B.declare stmt "INTEGER" param_treatment.treat_direct) ∧
    (∀ (val : Text) (db : σ) (journal : List Event),
      (set_param_decl_Text B.traced stmt val index (db, journal)).2.2 =
        journal ++ [.declare stmt "varchar" .treat_string]) ∧
    (∀ (val : Int) (db : σ) (journal : List Event),
      (set_param_decl_Int B.traced stmt val index (db, journal)).2.2 =
        journal ++ [.declare stmt "INTEGER" .treat_direct]) := by
  refine ⟨fun _ => rfl, fun _ => rfl, ?_, ?_⟩
  · intro val db journal
    exact record_journal _ _ (db, journal)
  · intro val db journal
    exact record_journal _ _ (db, journal)

/-! ## C8 -/

/-- C8 (the code at the failing input): both `get_column` overloads leave `data` as it was,
whatever the row holds. Binding 42 and reading column 0 of the row holding 42 into a
variable that held 0 leaves 0, and reading the row holding "alice" into an empty string
leaves the empty string. -/
theorem get_column_leaves_data :
    (∀ (r : row) (index data : Int), get_column_Int r index data = data) ∧
    (∀ (r : row) (index : Int) (data : Text), get_column_Text r index data = data) ∧
    (set_param_invocation ⟨"sqlgg_stmt", []⟩ (.int 42) 0).values = [.int 42] ∧
    get_column_Int [.int 42] 0 0 = 0 ∧
    get_column_Int [.int 42] 0 0 ≠ 42 ∧
    (set_param_invocation ⟨"sqlgg_stmt", []⟩ (.text "alice") 0).values = [.text "alice"] ∧
    get_column_Text [.text "alice"] 0 "" = "" ∧
    get_column_Text [.text "alice"] 0 "" ≠ "alice" := by
  refine ⟨fun _ _ _ => rfl, fun _ _ _ => rfl, rfl, rfl, by decide, rfl, rfl, by decide⟩

/-! ## C9 -/

/-- C9: a generated descriptor hands its values to the invocation in position order: the
handle ends with exactly those values after the ones it held, every `exec` the client
library receives in a run of `do_select` is for `sqlgg_stmt` with exactly the descriptor's
values in order, and exchanging two different values at two positions gives a different
argument list. -/
theorem generated_params_argument_order (vals : List Value) :
    (∀ (call : invocation) (index : Int),
      (generated_set_params_inv call vals index).values = call.values ++ vals) ∧
    (∀ (σ ε β : Type) (B : Backend σ ε) (db : σ) (R : result) (sql : String) (binder : β)
      (call : invocation),
      Event.exec call ∈
        (do_select B.traced (db, []) R sql binder (generated_params B.traced vals)).2.2.2 →
      call = ⟨"sqlgg_stmt", vals⟩) ∧
    (∀ i j : Nat, i < vals.length → j < vals.length →
      vals.getD i (.int 0) ≠ vals.getD j (.int 0) →
      (generated_set_params_inv ⟨"sqlgg_stmt", []⟩ (swap_values vals i j) 0).values ≠
        (generated_set_params_inv ⟨"sqlgg_stmt", []⟩ vals 0).values) := by
  refine ⟨?_, ?_, ?_⟩
  · intro call index
    rw [generated_set_params_inv_eq]
  · intro σ ε β B db R sql binder call h
    have := do_select_traced_exec B (generated_params B.traced vals)
      (fun c => generated_set_params_inv c vals 0)
      (fun stmt s ev hev => generated_set_params_decl_journal B stmt vals 0 s ev hev)
      (fun _ _ => rfl) db R sql binder call h
    rw [this]
    simp only [generated_set_params_inv_eq, List.nil_append]
  · intro i j hi hj hne heq
    rw [generated_set_params_inv_eq, generated_set_params_inv_eq] at heq
    simp only [List.nil_append] at heq
    apply hne
    have h1 : (swap_values vals i j)[j]? = some (vals.getD i (.int 0)) := by
      unfold swap_values
      rw [List.getElem?_set_self (by simpa using hj)]
    rw [heq] at h1
    rw [List.getD_eq_getElem?_getD vals j, h1]
    rfl

/-- C9 at the descriptor for the values 7 and 9: the invocation receives 7 then 9, and the
descriptor with the two values exchanged gives another argument list. -/
theorem generated_params_argument_order_witness :
    (generated_set_params_inv ⟨"sqlgg_stmt", []⟩ [.int 7, .int 9] 0).values
      = [.int 7, .int 9] ∧
    (generated_set_params_inv ⟨"sqlgg_stmt", []⟩ (swap_values [.int 7, .int 9] 0 1) 0).values ≠
      (generated_set_params_inv ⟨"sqlgg_stmt", []⟩ [.int 7, .int 9] 0).values :=
  ⟨(generated_params_argument_order [.int 7, .int 9]).1 ⟨"sqlgg_stmt", []⟩ 0,
   (generated_params_argument_order [.int 7, .int 9]).2.2 0 1 (by decide) (by decide)
     (by decide)⟩

/-! ## C10 -/

/-- C10: in a run of `do_select` that returns, the calls received are, in this order and
once each: `prepare` of `sqlgg_stmt` with the caller's text, the descriptor's declaration
phase on the handle of `sqlgg_stmt`, `prepared` of `sqlgg_stmt`, the descriptor's invocation
phase on the fresh invocation of `sqlgg_stmt`, `exec` of the invocation that phase returned,
and `unprepare` of `sqlgg_stmt`; the journalled run is the plain run. -/
theorem do_select_call_sequence {σ ε β : Type} (B : Backend σ ε) (P : Params σ ε) (db : σ)
    (R : result) (sql : String) (binder : β) (b : Bool) (R' : result) (db' : σ)
    (journal : List Event)
    (h : do_select B.traced (db, []) R sql binder P.traced = (.ok b, R', (db', journal))) :
    (∃ call s s', P.set_params_inv ⟨"sqlgg_stmt", []⟩ s = (.ok call, s') ∧
      journal = [.prepare "sqlgg_stmt" sql, .set_params_decl ⟨"sqlgg_stmt"⟩,
        .prepared "sqlgg_stmt", .set_params_inv ⟨"sqlgg_stmt", []⟩, .exec call,
        .unprepare "sqlgg_stmt"]) ∧
    do_select B db R sql binder P = (.ok b, R', db') := by
  obtain ⟨hb, s1, s2, s3, call, s4, s5, h1, h2, h3, h4, h5, h6⟩ :=
    (do_select_ok_iff B.traced (db, []) R sql binder P.traced b R' (db', journal)).mp h
  have k1 := (record_eq_iff _ _ _ _ _).mp (show record _ (B.prepare _ _) _ = _ from h1)
  have k2 := (record_eq_iff _ _ _ _ _).mp (show record _ (P.set_params_decl _) _ = _ from h2)
  have k3 := (record_eq_iff _ _ _ _ _).mp (show record _ (B.prepared _) _ = _ from h3)
  have k4 := (record_eq_iff _ _ _ _ _).mp (show record _ (P.set_params_inv _) _ = _ from h4)
  have k5 := (record_eq_iff _ _ _ _ _).mp (show record _ (B.exec _) _ = _ from h5)
  have k6 := (record_eq_iff _ _ _ _ _).mp (show record _ (B.unprepare _) _ = _ from h6)
  refine ⟨⟨call, s3.1, s4.1, k4.1, ?_⟩, ?_⟩
  · have := k6.2
    simp only [k5.2, k4.2, k3.2, k2.2, k1.2] at this
    simpa using this
  · exact (do_select_ok_iff B db R sql binder P b R' db').mpr
      ⟨hb, s1.1, s2.1, s3.1, call, s4.1, s5.1, k1.1, k2.1, k3.1, k4.1, k5.1, k6.1⟩

/-- C10 on the reference connection, for the query for id 42. -/
theorem do_select_call_sequence_witness :
    do_select (reference_backend users_server).traced ([], []) []
        "SELECT name FROM users WHERE id = $1" ()
        (generated_params (reference_backend users_server) [.int 42]).traced
      = (.ok true, [[.text "bob"]], ([],
          [.prepare "sqlgg_stmt" "SELECT name FROM users WHERE id = $1",
           .set_params_decl ⟨"sqlgg_stmt"⟩, .prepared "sqlgg_stmt",
           .set_params_inv ⟨"sqlgg_stmt", []⟩, .exec ⟨"sqlgg_stmt", [.int 42]⟩,
           .unprepare "sqlgg_stmt"])) ∧
    do_select (reference_backend users_server) [] []
        "SELECT name FROM users WHERE id = $1" ()
        (generated_params (reference_backend users_server) [.int 42])
      = (.ok true, [[.text "bob"]], []) :=
  ⟨rfl,
   (do_select_call_sequence (reference_backend users_server)
      (generated_params (reference_backend users_server) [.int 42]) [] []
      "SELECT name FROM users WHERE id = $1" () true [[.text "bob"]] []
      [.prepare "sqlgg_stmt" "SELECT name FROM users WHERE id = $1",
       .set_params_decl ⟨"sqlgg_stmt"⟩, .prepared "sqlgg_stmt",
       .set_params_inv ⟨"sqlgg_stmt", []⟩, .exec ⟨"sqlgg_stmt", [.int 42]⟩,
       .unprepare "sqlgg_stmt"] rfl).2⟩

end pqxx_traits
